import Mathlib

/-!
Shallow embedding of the core of `src/src-tauri/src/main.rs` (a live-chat
listener that parses polled YouTube live-chat responses and paces their
emission to a display), together with theorems settling the frozen claims
about it.

Modelling conventions:
- `serde_json::Value` is modelled by the inductive `Json`.  JSON numbers that
  are representable as `i64` (the only numeric distinction the source makes,
  via `Value::is_i64` / `Value::as_i64`) are `Json.intNum`; any other number
  is `Json.otherNum`, whose value the source never inspects.
- Rust `Duration` values are modelled as `Nat` nanosecond counts.
  `Duration + Duration` is `Nat` addition and `Duration / u32` is `Nat`
  floor division, which agrees with `Duration::checked_div` at nanosecond
  granularity; dividing by zero panics in Rust, which the embedding makes
  explicit (see `CyclicArray.average` and `on_comment`).
- `Instant` values are modelled as `Nat` timestamps; `now - earlier` is `Nat`
  subtraction (the source only ever subtracts an earlier instant from a later
  one, both taken from the same monotonic clock).
- Strings are Lean `String`s, but the two string predicates the source uses
  (`str::starts_with`, `str::trim().is_empty()`) are given explicit
  `List Char` implementations so that concrete instances reduce.
- Fallible or panicking Rust code is modelled with `Option` / explicit
  `panic` constructors, as documented at each definition.
-/

/-- Model of `serde_json::Value`.  Object fields are an association list
(keys are unique in parsed JSON, and `Value::get` looks a key up). -/
inductive Json where
  | null
  | bool (b : Bool)
  | intNum (n : Int)
  | otherNum
  | str (s : String)
  | arr (xs : List Json)
  | obj (fields : List (String × Json))

/-- Models `serde_json::Value::get(key)`: field lookup on an object, `None`
on every other variant. -/
def Json.get (j : Json) (key : String) : Option Json :=
  match j with
  | .obj fields => fields.lookup key
  | _ => none

/-- Models `serde_json::Value::as_array()`. -/
def Json.asArray : Json → Option (List Json)
  | .arr xs => some xs
  | _ => none

/-- Models `serde_json::Value::as_str()`. -/
def Json.asStr : Json → Option String
  | .str s => some s
  | _ => none

/-- Models `serde_json::Value::as_i64()`. -/
def Json.asI64 : Json → Option Int
  | .intNum n => some n
  | _ => none

/-- Models `serde_json::Value::is_i64()`. -/
def Json.isI64 : Json → Bool
  | .intNum _ => true
  | _ => false

/-- Model of the `CommentElement` enum (`Text { content }` / `Emoji { url }`). -/
inductive CommentElement where
  | text (content : String)
  | emoji (url : String)
deriving DecidableEq, Repr

/-- Model of the `SerializedComment` struct: the element list of one comment. -/
structure SerializedComment where
  elements : List CommentElement
deriving DecidableEq, Repr

/-- Models `SerializedComment::new`: an empty element list is rejected
(`None`), a non-empty one is wrapped. -/
def SerializedComment.new (elements : List CommentElement) : Option SerializedComment :=
  if elements.isEmpty then none else some ⟨elements⟩

/-- Models the filter closure inside `run_to_element`'s multi-candidate arm:
`matches!(x.get("width"), Some(t) if t.is_i64())` — keep a thumbnail only if
it has a `width` field holding an `i64`. -/
def hasI64Width (x : Json) : Bool :=
  match x.get "width" with
  | some t => t.isI64
  | none => false

/-- Models the sort key `x.get("width").unwrap().as_i64()` of the
`max_by_key` call (an `Option<i64>`; after the width filter it is always
`Some`, so the `unwrap` cannot panic and is modelled with `bind`). -/
def widthKey (x : Json) : Option Int :=
  (x.get "width").bind Json.asI64

/-- Rust's `Ord` on `Option<i64>`, restricted to `<=`: `None` sorts below
every `Some`. -/
def optIntLe : Option Int → Option Int → Bool
  | none, _ => true
  | some _, none => false
  | some a, some b => a ≤ b

/-- One step of `Iterator::max_by_key`: keep the newer element exactly when
its key is `>=` the accumulator's key (this is how Rust ends up returning
the LAST of several equal maxima). -/
def pickWider (best y : Json) : Json :=
  if optIntLe (widthKey best) (widthKey y) then y else best

/-- Models `Iterator::max_by_key` over thumbnails with key `widthKey`:
`none` on an empty iterator, otherwise the last element with the maximal
key. -/
def maxByWidth (l : List Json) : Option Json :=
  match l with
  | [] => none
  | x :: xs => some (xs.foldl pickWider x)

/-- Models `YoutubeListenerInner::run_to_element`.  A run with an `emoji`
field resolves its `image.thumbnails` candidates: zero candidates yield
`None`; exactly one is used as-is; with two or more, candidates without an
`i64` `width` are dropped and the maximal-width one is chosen (`None` if
none remains).  The chosen object must have a string `url`.  Otherwise a
run with a string `text` field becomes a `Text` element; anything else
yields `None`. -/
def run_to_element (run : Json) : Option CommentElement :=
  match run.get "emoji" with
  | some emoji =>
      (emoji.get "image").bind fun image =>
      (image.get "thumbnails").bind fun thumbs =>
      thumbs.asArray.bind fun image_candidates =>
      (match image_candidates with
       | [] => none
       | [c] => some c
       | _ => maxByWidth (image_candidates.filter hasI64Width)).bind fun image_object =>
      ((image_object.get "url").bind Json.asStr).map CommentElement.emoji
  | none =>
      match run.get "text" with
      | some t => t.asStr.map CommentElement.text
      | none => none

/-- Models the per-action closure inside `parse_json`'s `flat_map`: the
`?`-chain `x.get("addChatItemAction")?.get("item")?
.get("liveChatTextMessageRenderer")?.get("message")?.get("runs")?.as_array()?`
producing the run list of one action, or `None` when the action has a
different shape. -/
def action_runs (x : Json) : Option (List Json) :=
  (x.get "addChatItemAction").bind fun a =>
  (a.get "item").bind fun b =>
  (b.get "liveChatTextMessageRenderer").bind fun c =>
  (c.get "message").bind fun d =>
  (d.get "runs").bind Json.asArray

/-- Models the fixed-path `?`-chain at the head of `parse_json`:
`raw.get("continuationContents")?.get("liveChatContinuation")?
.get("actions")?.as_array()?`. -/
def chat_actions (raw : Json) : Option (List Json) :=
  (raw.get "continuationContents").bind fun a =>
  (a.get "liveChatContinuation").bind fun b =>
  (b.get "actions").bind Json.asArray

/-- Models `YoutubeListenerInner::parse_json`.  If the fixed path fails the
whole result is `None`; otherwise each action is narrowed to its run list
(non-matching actions are skipped by `flat_map` over `Option`), each run
list is converted to elements through `run_to_element` (runs yielding no
element are skipped), and `SerializedComment::new` drops comments whose
element list came out empty. -/
def parse_json (raw : Json) : Option (List SerializedComment) :=
  (chat_actions raw).map fun actions =>
    (((actions.filterMap action_runs).map fun rs =>
        rs.filterMap run_to_element).filterMap SerializedComment.new)

/-- Model of the `CyclicArray<N>` struct: `value` is the `[Duration; N]`
slot array (durations in nanoseconds) and `current_index` the write cursor.
Rust's array type guarantees `value.length = N` and the code keeps
`current_index < N`; theorems that quantify over states carry these as
hypotheses where they matter. -/
structure CyclicArray (N : Nat) where
  value : List Nat
  current_index : Nat
deriving DecidableEq, Repr

/-- Models `CyclicArray::new`: all slots hold `Duration::ZERO`, cursor 0. -/
def CyclicArray.new (N : Nat) : CyclicArray N :=
  ⟨List.replicate N 0, 0⟩

/-- Models `CyclicArray::put`: overwrite the slot at the cursor, then advance
the cursor, wrapping to 0 after the last slot. -/
def CyclicArray.put {N : Nat} (w : CyclicArray N) (v : Nat) : CyclicArray N :=
  { value := w.value.set w.current_index v
    current_index := if N - 1 ≤ w.current_index then 0 else w.current_index + 1 }

/-- Models `CyclicArray::average`: fold over the slots summing and counting
the non-zero ones, then `sum / count`.  In Rust this last step is
`Duration / u32`, which PANICS when `count = 0`; the panic is modelled as
`none`, and `some (sum / count)` is the returned average (floor division at
nanosecond granularity, exactly `Duration::checked_div`). -/
def CyclicArray.average {N : Nat} (w : CyclicArray N) : Option Nat :=
  let sc := w.value.foldl (fun (p : Nat × Nat) d => if d ≠ 0 then (p.1 + d, p.2 + 1) else p) (0, 0)
  if sc.2 = 0 then none else some (sc.1 / sc.2)

/-- Model of the mutable listener state `on_comment` touches: the
`comment_fetch_period` window (capacity 5 in the source) and the
`last_comment_fetch` timestamp (`None` before the first accepted fetch).
The source guards both with one `Mutex` each; `on_comment` is modelled as a
sequential function of this state. -/
structure ListenerState where
  comment_fetch_period : CyclicArray 5
  last_comment_fetch : Option Nat
deriving DecidableEq, Repr

/-- Models `Duration::from_secs_f64(5.2)` (the `DEFAULT_FETCH_PERIOD_SECS`
constant used on the first fetch): 5.2 seconds rounds to exactly
5200000000 nanoseconds. -/
def default_fetch_period_nanos : Nat := 5200000000

/-- One observable effect of `on_comment`: an `emit` attempt or a pacing
sleep.  `stats` records the batch length and the normalize duration in
nanoseconds (the source emits their floating-point ratio `comments_per_sec`,
which is determined by this pair); `sleepNanos` is one
`tokio::time::sleep(sleep_time_of_one_loop)`. -/
inductive Emission where
  | stats (batchLen : Nat) (normalizeDurationNanos : Nat)
  | comment (c : SerializedComment)
  | sleepNanos (d : Nat)
deriving DecidableEq, Repr

/-- Outcome of one `on_comment` invocation: either the task panics (with the
emissions already attempted before the panic), or it completes with the new
listener state and the full emission sequence. -/
inductive OnCommentResult where
  | panic (emitted : List Emission)
  | ok (st : ListenerState) (emitted : List Emission)
deriving DecidableEq, Repr

/-- Models `YoutubeListenerInner::on_comment`.  The argument `parsed` is the
outcome of `serde_json::from_str(&json_str)`: the source calls `.unwrap()`
on it, so an `Except.error` (malformed JSON body) is a PANIC.  On a parsed
document: a failed `parse_json` returns silently; otherwise the elapsed
time since the last fetch (or the 5.2 s default on the first fetch) is put
into the window, the window average becomes `normalize_duration` (a panic if
no slot of the window is non-zero, see `CyclicArray.average`), stats are
emitted, and then `normalize_duration / comments.len()` PANICS when the
batch is empty; otherwise each comment is emitted followed by the per-item
sleep. -/
def on_comment (st : ListenerState) (now : Nat) (parsed : Except String Json) :
    OnCommentResult :=
  match parsed with
  | .error _ => .panic []
  | .ok raw =>
      match parse_json raw with
      | none => .ok st []
      | some comments =>
          let elapsed_time_from_last_fetch :=
            match st.last_comment_fetch with
            | some t => now - t
            | none => default_fetch_period_nanos
          let window := st.comment_fetch_period.put elapsed_time_from_last_fetch
          let st1 : ListenerState := ⟨window, some now⟩
          match window.average with
          | none => .panic []
          | some normalize_duration =>
              let stats_emission := Emission.stats comments.length normalize_duration
              if comments.length = 0 then
                .panic [stats_emission]
              else
                let sleep_time_of_one_loop := normalize_duration / comments.length
                .ok st1 (stats_emission ::
                  comments.flatMap fun c =>
                    [Emission.comment c, Emission.sleepNanos sleep_time_of_one_loop])

/-- Models `str::starts_with` on the relevance filter's URL: character-list
comparison so that concrete instances reduce. -/
def strHasHead (s p : String) : Bool :=
  s.data.take p.data.length == p.data

/-- Models `data.body.trim().is_empty()`: the trimmed body is empty exactly
when every character is whitespace. -/
def trimmedEmpty (s : String) : Bool :=
  s.data.all fun c => c.isWhitespace

/-- The chat-polling endpoint URL head that `on_response` filters with. -/
def chat_url_head : String :=
  "https://www.youtube.com/youtubei/v1/live_chat/get_live_chat"

/-- Models `POLL_COUNT` from `on_response`. -/
def poll_count : Nat := 50

/-- Models `POLL_INTERVAL` from `on_response` (milliseconds). -/
def poll_interval_ms : Nat := 100

/-- One observable effect of `YoutubeListener::on_response`, in the order
the callback performs them on the event-delivery thread: a blocking
`std::thread::sleep`, a retry warning on an empty body, spawning the
processing task `inner.on_comment(body)` onto the tokio runtime, the fetch
error log, or the retry-budget-exhausted warning. -/
inductive RespEffect where
  | sleepMs (ms : Nat)
  | logWarnEmptyRetry
  | spawnProcessing (body : String)
  | logErrorFetch
  | logWarnExhausted
deriving DecidableEq, Repr

/-- Models the `'poll` loop of `on_response`.  `fetch i` is what the `i`-th
call of the externally supplied `fetch()` returns (`Except.error` models a
`failure::Error`).  Each iteration sleeps `POLL_INTERVAL` first, then
fetches: an empty trimmed body logs and retries, a non-empty body is handed
off via `spawn` and the callback returns, an error logs and returns.  An
exhausted budget logs a warning. -/
def on_response_go (fetch : Nat → Except String String) : Nat → Nat → List RespEffect
  | _, 0 => [RespEffect.logWarnExhausted]
  | i, fuel + 1 =>
      RespEffect.sleepMs poll_interval_ms ::
      match fetch i with
      | .ok body =>
          if trimmedEmpty body then
            RespEffect.logWarnEmptyRetry :: on_response_go fetch (i + 1) fuel
          else
            [RespEffect.spawnProcessing body]
      | .error _ => [RespEffect.logErrorFetch]

/-- Models `YoutubeListener::on_response` as the list of effects the
callback performs, in order, on the automation layer's event-delivery
thread.  A URL that does not start with the chat endpoint head returns
immediately with no effect; a relevant URL runs the polling retry loop
inline. -/
def on_response (url : String) (fetch : Nat → Except String String) : List RespEffect :=
  if strHasHead url chat_url_head then on_response_go fetch 0 poll_count else []

/-- Thumbnail object with an `i64` `width` and a string `url`, used to state
concrete instances. -/
def thumbW (w : Int) (u : String) : Json :=
  Json.obj [("width", Json.intNum w), ("url", Json.str u)]

/-- Thumbnail object with a `url` but no `width`. -/
def thumbNoW (u : String) : Json :=
  Json.obj [("url", Json.str u)]

/-- Run object carrying an emoji descriptor with the given thumbnail
candidates. -/
def emojiRun (ts : List Json) : Json :=
  Json.obj [("emoji", Json.obj [("image", Json.obj [("thumbnails", Json.arr ts)])])]

/-- Run object carrying plain text. -/
def textRun (s : String) : Json :=
  Json.obj [("text", Json.str s)]

/-- Document whose fixed path resolves to the given action list. -/
def docOf (actions : List Json) : Json :=
  Json.obj [("continuationContents",
    Json.obj [("liveChatContinuation",
      Json.obj [("actions", Json.arr actions)])])]

/-- Action of the `addChatItemAction`/text-message shape with the given run
list. -/
def actionOf (runs : List Json) : Json :=
  Json.obj [("addChatItemAction",
    Json.obj [("item",
      Json.obj [("liveChatTextMessageRenderer",
        Json.obj [("message",
          Json.obj [("runs", Json.arr runs)])])])])]

/-- Recogniser for the hand-off effect of `on_response`. -/
def isSpawn : RespEffect → Bool
  | RespEffect.spawnProcessing _ => true
  | _ => false

/-- C1: the claim says a shape mismatch at any parse stage — including the
whole document — is treated as nothing-to-emit and `on_body` never panics on
a malformed body.  The code violates this at the whole-document stage: it
calls `serde_json::from_str(&json_str).unwrap()`, so a body that is not
valid JSON (modelled by the `Except.error` outcome of `from_str`) panics
the processing task.  This theorem evaluates the embedded `on_comment` at
such a failing input. -/
theorem malformed_body_panics :
    on_comment ⟨CyclicArray.new 5, none⟩ 0 (Except.error "expected value at line 1 column 1") =
      OnCommentResult.panic [] := rfl

/-- C2: the claim says `average()` on a window with zero populated slots
signals an explicit error and never crashes.  The code computes
`sum / count` with `count = 0`, and `Duration / u32` panics on a zero
divisor; this theorem evaluates the embedded `average` at the failing input
(a fresh window with zero puts), where `none` is exactly that
division-by-zero panic. -/
theorem empty_window_average_panics :
    (CyclicArray.new 5).average = none := rfl

/-- C3: the claim says pacing a zero-length batch is a guarded no-op that
returns without crashing and without emitting anything.  The code first
emits the stats event and then computes `normalize_duration /
(comments.len() as u32)` unguarded, which panics when the batch is empty.
This theorem evaluates the embedded `on_comment` at a failing input: a
well-formed document whose action list is empty parses to a zero-length
batch, the stats event is emitted, and the per-item delay division
panics. -/
theorem empty_batch_pacing_panics :
    on_comment ⟨CyclicArray.new 5, none⟩ 0 (Except.ok (docOf [])) =
      OnCommentResult.panic [Emission.stats 0 default_fetch_period_nanos] := rfl

/-- C6: for every JSON document in which any node of the fixed path
(continuation container → live-chat continuation → action list) is absent
or of the wrong shape — that is, the embedded path chain `chat_actions`
yields `none` — `parse_json` returns `none`.  `parse_json` is a total
function of the document, so no input panics. -/
theorem parse_path_guard (raw : Json) (h : chat_actions raw = none) :
    parse_json raw = none := by
  unfold parse_json
  rw [h]
  rfl

/-- Witness for C6's theorem at a concrete document (`null` has none of the
path nodes). -/
theorem parse_path_guard_witness : parse_json Json.null = none :=
  parse_path_guard Json.null rfl

theorem average_foldl_eq (l : List Nat) (s c : Nat) :
    l.foldl (fun (p : Nat × Nat) d => if d ≠ 0 then (p.1 + d, p.2 + 1) else p) (s, c) =
      (s + (l.filter fun d => d ≠ 0).sum, c + (l.filter fun d => d ≠ 0).length) := by
  induction l generalizing s c with
  | nil => simp
  | cons x xs ih =>
      by_cases hx : x = 0
      · simpa [hx] using ih s c
      · simp only [List.foldl_cons, List.filter_cons]
        rw [if_pos (by simpa using hx), if_pos (by simpa using hx), ih]
        simp only [List.sum_cons, List.length_cons, Prod.mk.injEq]
        omega

theorem average_eq_filter {N : Nat} (w : CyclicArray N) :
    w.average = if (w.value.filter fun d => d ≠ 0) = [] then none
      else some ((w.value.filter fun d => d ≠ 0).sum /
        (w.value.filter fun d => d ≠ 0).length) := by
  unfold CyclicArray.average
  rw [average_foldl_eq]
  simp [List.length_eq_zero]

/-- C8: for every capacity-5 window state with at least one populated slot
(a slot is populated iff its value is not the zero-duration default),
`average` is the sum of the populated slots divided by the count of
populated slots — not by the capacity: concretely, a fresh capacity-5
window after puts of 1 s, 2 s and 3 s averages to exactly 2 s. -/
theorem window_average :
    (∀ w : CyclicArray 5, (w.value.filter fun d => d ≠ 0) ≠ [] →
      w.average = some ((w.value.filter fun d => d ≠ 0).sum /
        (w.value.filter fun d => d ≠ 0).length)) ∧
    ((((CyclicArray.new 5).put 1000000000).put 2000000000).put 3000000000).average =
      some 2000000000 := by
  refine ⟨fun w hw => ?_, rfl⟩
  rw [average_eq_filter w, if_neg hw]

/-- Witness for C8's theorem: the populated-slot hypothesis discharged at
the 1 s/2 s/3 s window. -/
theorem window_average_witness :
    ((((CyclicArray.new 5).put 1000000000).put 2000000000).put 3000000000).average =
      some ((((((CyclicArray.new 5).put 1000000000).put 2000000000).put 3000000000).value.filter
          fun d => d ≠ 0).sum /
        (((((CyclicArray.new 5).put 1000000000).put 2000000000).put 3000000000).value.filter
          fun d => d ≠ 0).length) :=
  window_average.1 ((((CyclicArray.new 5).put 1000000000).put 2000000000).put 3000000000)
    (by decide)

/-- C10: `average` counts a slot as populated exactly when its stored value
is non-zero — it is the division-by-zero panic (`none`) precisely when
every slot is zero — so putting the zero duration is indistinguishable from
an empty slot: writing 0 into the fresh window leaves the slot array
literally unchanged, and a window whose only ever put was the zero duration
still behaves as if zero slots were populated (`average` panics). -/
theorem zero_sample_indistinguishable :
    (∀ w : CyclicArray 5, w.average = none ↔ ∀ d ∈ w.value, d = 0) ∧
    ((CyclicArray.new 5).put 0).value = (CyclicArray.new 5).value ∧
    ((CyclicArray.new 5).put 0).average = none := by
  refine ⟨fun w => ?_, rfl, rfl⟩
  have h1 : w.average = none ↔ (w.value.filter fun d => d ≠ 0) = [] := by
    rw [average_eq_filter w]
    by_cases hf : (w.value.filter fun d => d ≠ 0) = [] <;> simp [hf]
  rw [h1, List.filter_eq_nil_iff]
  simp

/-- Witness for C10's theorem at a concrete state: the window whose only put
was the zero duration. -/
theorem zero_sample_indistinguishable_witness :
    ((CyclicArray.new 5).put 0).average = none :=
  (zero_sample_indistinguishable.1 ((CyclicArray.new 5).put 0)).mpr (by decide)

theorem filterMap_new_spec (ls : List (List CommentElement)) :
    (∀ c ∈ ls.filterMap SerializedComment.new, c.elements ≠ []) ∧
    (ls.filterMap SerializedComment.new).length = ls.countP (fun es => !es.isEmpty) := by
  induction ls with
  | nil => simp
  | cons l t ih =>
      cases l with
      | nil =>
          simpa [SerializedComment.new, List.countP_cons] using ih
      | cons e es =>
          refine ⟨?_, ?_⟩
          · intro c hc
            rcases (by simpa [SerializedComment.new] using hc :
                c = SerializedComment.mk (e :: es) ∨ c ∈ t.filterMap SerializedComment.new) with
              h | h
            · simp [h]
            · exact ih.1 c h
          · simp [SerializedComment.new, List.countP_cons, ih.2]

/-- C7: for every parsed document (fixed path resolving to `actions`), a
message whose run list yields zero elements after filtering is dropped:
every comment in the output batch has a non-empty element list, and the
batch length equals the number of run lists whose filtered element list is
non-empty (the valid comments only). -/
theorem empty_comments_dropped (raw : Json) (actions : List Json)
    (batch : List SerializedComment)
    (ha : chat_actions raw = some actions)
    (hb : parse_json raw = some batch) :
    (∀ c ∈ batch, c.elements ≠ []) ∧
    batch.length = ((actions.filterMap action_runs).map fun rs =>
        rs.filterMap run_to_element).countP (fun es => !es.isEmpty) := by
  unfold parse_json at hb
  rw [ha] at hb
  have hb2 : (((actions.filterMap action_runs).map fun rs =>
      rs.filterMap run_to_element).filterMap SerializedComment.new) = batch := by
    simpa using hb
  subst hb2
  exact filterMap_new_spec _

/-- Witness for C7's theorem: a document with one valid text comment and one
message whose single emoji run has zero candidates (so its element list is
empty and it is dropped); the batch keeps only the valid comment. -/
theorem empty_comments_dropped_witness :
    (∀ c ∈ [SerializedComment.mk [CommentElement.text "hi"]], c.elements ≠ []) ∧
    ([SerializedComment.mk [CommentElement.text "hi"]] : List SerializedComment).length =
      (([actionOf [textRun "hi"], actionOf [emojiRun []]].filterMap action_runs).map fun rs =>
        rs.filterMap run_to_element).countP (fun es => !es.isEmpty) :=
  empty_comments_dropped (docOf [actionOf [textRun "hi"], actionOf [emojiRun []]])
    [actionOf [textRun "hi"], actionOf [emojiRun []]]
    [SerializedComment.mk [CommentElement.text "hi"]] rfl rfl

/-- C9: on the first-ever accepted fetch (fresh window, no last-fetch
timestamp), `on_comment` records the 5.2 s default period into the rate
window instead of a measured gap, so — for every wall-clock instant `now` —
the pacing duration of the first batch (the stats duration and the per-item
sleep budget) is exactly the default period. -/
theorem first_fetch_default (now : Nat) (raw : Json) (comments : List SerializedComment)
    (hparse : parse_json raw = some comments) (hne : comments ≠ []) :
    on_comment ⟨CyclicArray.new 5, none⟩ now (Except.ok raw) =
      OnCommentResult.ok ⟨(CyclicArray.new 5).put default_fetch_period_nanos, some now⟩
        (Emission.stats comments.length default_fetch_period_nanos ::
          comments.flatMap fun c =>
            [Emission.comment c,
             Emission.sleepNanos (default_fetch_period_nanos / comments.length)]) := by
  have havg : ((CyclicArray.new 5).put default_fetch_period_nanos).average =
      some default_fetch_period_nanos := rfl
  have hlen : ¬comments.length = 0 := by
    simpa [List.length_eq_zero] using hne
  simp [on_comment, hparse, havg, hlen]

/-- Witness for C9's theorem at a concrete first fetch: `now = 7` and a
one-comment document. -/
theorem first_fetch_default_witness :
    on_comment ⟨CyclicArray.new 5, none⟩ 7 (Except.ok (docOf [actionOf [textRun "hi "]])) =
      OnCommentResult.ok ⟨(CyclicArray.new 5).put default_fetch_period_nanos, some 7⟩
        (Emission.stats ([SerializedComment.mk [CommentElement.text "hi "]]).length
            default_fetch_period_nanos ::
          ([SerializedComment.mk [CommentElement.text "hi "]]).flatMap fun c =>
            [Emission.comment c,
             Emission.sleepNanos (default_fetch_period_nanos /
               ([SerializedComment.mk [CommentElement.text "hi "]]).length)]) :=
  first_fetch_default 7 (docOf [actionOf [textRun "hi "]])
    [SerializedComment.mk [CommentElement.text "hi "]] rfl (by simp)

theorem on_response_go_spawn_last (fetch : Nat → Except String String) :
    ∀ (fuel i : Nat) (b : String),
      RespEffect.spawnProcessing b ∈ on_response_go fetch i fuel →
      ∃ pre, on_response_go fetch i fuel = pre ++ [RespEffect.spawnProcessing b] := by
  intro fuel
  induction fuel with
  | zero =>
      intro i b hb
      simp [on_response_go] at hb
  | succ n ih =>
      intro i b hb
      cases hf : fetch i with
      | ok body =>
          by_cases ht : trimmedEmpty body
          · have hb2 : RespEffect.spawnProcessing b ∈ on_response_go fetch (i + 1) n := by
              simpa [on_response_go, hf, ht] using hb
            obtain ⟨pre, hpre⟩ := ih (i + 1) b hb2
            refine ⟨RespEffect.sleepMs poll_interval_ms :: RespEffect.logWarnEmptyRetry :: pre, ?_⟩
            simp [on_response_go, hf, ht, hpre]
          · have hb2 : b = body := by
              simpa [on_response_go, hf, ht] using hb
            subst hb2
            refine ⟨[RespEffect.sleepMs poll_interval_ms], ?_⟩
            simp [on_response_go, hf, ht]
      | error e =>
          simp [on_response_go, hf] at hb

theorem on_response_go_spawn_count (fetch : Nat → Except String String) :
    ∀ (fuel i : Nat), (on_response_go fetch i fuel).countP isSpawn ≤ 1 := by
  intro fuel
  induction fuel with
  | zero =>
      intro i
      simp [on_response_go, List.countP_cons, isSpawn]
  | succ n ih =>
      intro i
      cases hf : fetch i with
      | ok body =>
          by_cases ht : trimmedEmpty body
          · simpa [on_response_go, hf, ht, List.countP_cons, isSpawn] using ih (i + 1)
          · simp [on_response_go, hf, ht, List.countP_cons, isSpawn]
      | error e =>
          simp [on_response_go, hf, List.countP_cons, isSpawn]

/-- C4 counterexample: the claim says the `on_response` callback itself
never sleeps and hands the retrieval work (including the body-fetch retry
loop) off immediately on a relevance match.  At a relevant URL whose body
is ready at the first attempt, the callback's effect trace on the
event-delivery thread is a blocking 100 ms `std::thread::sleep` followed by
the spawn — the sleep happens inside the callback, before any hand-off. -/
theorem on_response_sleeps_in_callback :
    on_response chat_url_head (fun _ => Except.ok "x") =
      [RespEffect.sleepMs 100, RespEffect.spawnProcessing "x"] ∧
    RespEffect.sleepMs 100 ∈ on_response chat_url_head (fun _ => Except.ok "x") :=
  ⟨rfl, by rw [(rfl : on_response chat_url_head (fun _ => Except.ok "x") =
      [RespEffect.sleepMs 100, RespEffect.spawnProcessing "x"])]; exact List.mem_cons_self _ _⟩

/-- C4 amended: `on_response` performs the body-fetch retry loop, with its
blocking sleeps, synchronously inside the callback on the event-delivery
thread; what it hands off to an independently scheduled task is only the
parse-and-pace processing of a non-empty body, and it returns immediately
after that hand-off: an irrelevant URL produces no effect at all, a spawn —
when one happens — is the final effect of the trace, and at most one spawn
happens per observed response. -/
theorem on_response_hands_off_processing (url : String) (fetch : Nat → Except String String) :
    (strHasHead url chat_url_head = false → on_response url fetch = []) ∧
    (∀ b, RespEffect.spawnProcessing b ∈ on_response url fetch →
      ∃ pre, on_response url fetch = pre ++ [RespEffect.spawnProcessing b]) ∧
    (on_response url fetch).countP isSpawn ≤ 1 := by
  refine ⟨fun h => ?_, fun b hb => ?_, ?_⟩
  · simp [on_response, h]
  · unfold on_response at hb ⊢
    by_cases hu : strHasHead url chat_url_head <;> simp [hu] at hb ⊢
    exact on_response_go_spawn_last fetch poll_count 0 b hb
  · unfold on_response
    by_cases hu : strHasHead url chat_url_head <;> simp [hu]
    exact on_response_go_spawn_count fetch poll_count 0

/-- Witness for C4's amended theorem: an irrelevant URL yields no effects,
and at a relevant URL with a ready body the spawn of the processing task is
the final effect of the callback. -/
theorem on_response_hands_off_witness :
    on_response "x" (fun _ => Except.ok "y") = [] ∧
    ∃ pre, on_response chat_url_head (fun _ => Except.ok "y") =
      pre ++ [RespEffect.spawnProcessing "y"] :=
  ⟨(on_response_hands_off_processing "x" (fun _ => Except.ok "y")).1 (by decide),
   (on_response_hands_off_processing chat_url_head (fun _ => Except.ok "y")).2.1 "y"
     (by decide)⟩

theorem optIntLe_refl (a : Option Int) : optIntLe a a = true := by
  cases a <;> simp [optIntLe]

theorem optIntLe_total (a b : Option Int) : optIntLe a b = true ∨ optIntLe b a = true := by
  cases a <;> cases b <;> simp [optIntLe]
  omega

theorem optIntLe_trans {a b c : Option Int} (h1 : optIntLe a b = true)
    (h2 : optIntLe b c = true) : optIntLe a c = true := by
  cases a <;> cases b <;> cases c <;> simp [optIntLe] at h1 h2 ⊢
  omega

theorem foldl_pickWider_spec (xs : List Json) (x : Json) :
    (xs.foldl pickWider x = x ∨ xs.foldl pickWider x ∈ xs) ∧
    optIntLe (widthKey x) (widthKey (xs.foldl pickWider x)) = true ∧
    ∀ y ∈ xs, optIntLe (widthKey y) (widthKey (xs.foldl pickWider x)) = true := by
  induction xs generalizing x with
  | nil => simp [optIntLe_refl]
  | cons z zs ih =>
      have hstep : pickWider x z = x ∨ pickWider x z = z := by
        unfold pickWider
        split <;> simp
      have hx : optIntLe (widthKey x) (widthKey (pickWider x z)) = true := by
        unfold pickWider
        split
        · assumption
        · exact optIntLe_refl _
      have hz : optIntLe (widthKey z) (widthKey (pickWider x z)) = true := by
        unfold pickWider
        split
        · exact optIntLe_refl _
        · rcases optIntLe_total (widthKey z) (widthKey x) with h | h
          · exact h
          · exact absurd h (by assumption)
      obtain ⟨hmem, hacc, hall⟩ := ih (pickWider x z)
      simp only [List.foldl_cons]
      refine ⟨?_, optIntLe_trans hx hacc, ?_⟩
      · rcases hmem with h | h
        · rcases hstep with h2 | h2
          · exact Or.inl (h.trans h2)
          · refine Or.inr ?_
            rw [h.trans h2]
            exact List.mem_cons_self z zs
        · exact Or.inr (List.mem_cons_of_mem z h)
      · intro y hy
        rcases List.mem_cons.mp hy with rfl | hy2
        · exact optIntLe_trans hz hacc
        · exact hall y hy2

theorem maxByWidth_spec {l : List Json} {m : Json} (h : maxByWidth l = some m) :
    m ∈ l ∧ ∀ y ∈ l, optIntLe (widthKey y) (widthKey m) = true := by
  cases l with
  | nil => simp [maxByWidth] at h
  | cons x xs =>
      have hm : xs.foldl pickWider x = m := by
        simpa [maxByWidth] using h
      obtain ⟨hmem, hacc, hall⟩ := foldl_pickWider_spec xs x
      rw [hm] at hmem hacc hall
      refine ⟨?_, fun y hy => ?_⟩
      · rcases hmem with h2 | h2
        · rw [h2]
          exact List.mem_cons_self x xs
        · exact List.mem_cons_of_mem x h2
      · rcases List.mem_cons.mp hy with rfl | hy2
        · exact hacc
        · exact hall y hy2

/-- C5: for every run carrying an emoji descriptor whose candidate list is
`cands`: with two or more candidates, a resulting `Emoji` element's url is
the url of a candidate that declares an `i64` width and whose width is
maximal among the width-declaring candidates (candidates lacking a width
are excluded); with exactly one candidate, that candidate is used
regardless of width; with zero candidates, or with two or more candidates
none of which declares a width, the run yields no element. -/
theorem emoji_resolution (run emoji image thumbs : Json) (cands : List Json)
    (h1 : run.get "emoji" = some emoji)
    (h2 : emoji.get "image" = some image)
    (h3 : image.get "thumbnails" = some thumbs)
    (h4 : thumbs.asArray = some cands) :
    (∀ u, 2 ≤ cands.length → run_to_element run = some (CommentElement.emoji u) →
      ∃ m ∈ cands, hasI64Width m = true ∧
        (∀ y ∈ cands, hasI64Width y = true → optIntLe (widthKey y) (widthKey m) = true) ∧
        m.get "url" = some (Json.str u)) ∧
    (∀ c, cands = [c] →
      run_to_element run = ((c.get "url").bind Json.asStr).map CommentElement.emoji) ∧
    (cands = [] → run_to_element run = none) ∧
    (2 ≤ cands.length → cands.filter hasI64Width = [] → run_to_element run = none) := by
  have hre : run_to_element run =
      (match cands with
       | [] => none
       | [c] => some c
       | _ => maxByWidth (cands.filter hasI64Width)).bind fun image_object =>
        ((image_object.get "url").bind Json.asStr).map CommentElement.emoji := by
    simp [run_to_element, h1, h2, h3, h4]
  refine ⟨fun u hlen hu => ?_, fun c hc => ?_, fun hc => ?_, fun hlen hf => ?_⟩
  · rcases cands with _ | ⟨a, rest⟩
    · simp at hlen
    rcases rest with _ | ⟨b, t⟩
    · simp at hlen
    have hre2 : run_to_element run =
        (maxByWidth ((a :: b :: t).filter hasI64Width)).bind fun image_object =>
          ((image_object.get "url").bind Json.asStr).map CommentElement.emoji := by
      rw [hre]
    rw [hre2] at hu
    cases hmx : maxByWidth ((a :: b :: t).filter hasI64Width) with
    | none =>
        rw [hmx] at hu
        simp at hu
    | some m =>
        rw [hmx] at hu
        simp only [Option.some_bind] at hu
        cases hurl : m.get "url" with
        | none =>
            rw [hurl] at hu
            simp at hu
        | some j =>
            rw [hurl] at hu
            cases j <;> simp [Json.asStr] at hu
            case str s =>
              obtain ⟨hmem, hmax⟩ := maxByWidth_spec hmx
              refine ⟨m, (List.mem_filter.mp hmem).1, (List.mem_filter.mp hmem).2,
                fun y hy hw => hmax y (List.mem_filter.mpr ⟨hy, hw⟩), ?_⟩
              rw [hurl, hu]
  · subst hc
    rw [hre]
    rfl
  · subst hc
    rw [hre]
    rfl
  · rcases cands with _ | ⟨a, rest⟩
    · simp at hlen
    rcases rest with _ | ⟨b, t⟩
    · simp at hlen
    rw [hre, hf]
    rfl

/-- Witness for C5's theorem at the spec's example candidates
(width 100 / url "a" and width 200 / url "b"): the hypotheses are
discharged at the concrete run and resolution yields a maximal
width-declaring candidate whose url is "b". -/
theorem emoji_resolution_witness :
    ∃ m ∈ [thumbW 100 "a", thumbW 200 "b"], hasI64Width m = true ∧
      (∀ y ∈ [thumbW 100 "a", thumbW 200 "b"], hasI64Width y = true →
        optIntLe (widthKey y) (widthKey m) = true) ∧
      m.get "url" = some (Json.str "b") :=
  (emoji_resolution (emojiRun [thumbW 100 "a", thumbW 200 "b"])
      (Json.obj [("image", Json.obj [("thumbnails", Json.arr [thumbW 100 "a", thumbW 200 "b"])])])
      (Json.obj [("thumbnails", Json.arr [thumbW 100 "a", thumbW 200 "b"])])
      (Json.arr [thumbW 100 "a", thumbW 200 "b"])
      [thumbW 100 "a", thumbW 200 "b"] rfl rfl rfl rfl).1 "b" (by decide) rfl
